import Mathlib

/-!
Verification model of the Breach render-graph / visitor / selection framework.

Shallow embedding of:
* `Any` (include/any.tcc): type-erased box with exact-`typeid` retrieval.
* `SpecializedHierachicalVisitor` (include/visitor.tcc): two-tier runtime
  type dispatch (exact `type_info` map, then ordered `dynamic_cast` trials),
  with fallback visitor and per-hook default booleans.
* `CompositeRenderable::accept` / `LeafRenderable::accept` (src/renderable.cpp):
  hierarchical traversal with enter/leaf/leave hooks and early exit.
* `IRenderable::fullRender` and `CompositeRenderable::render`
  (src/renderable.cpp): the five-phase render pipeline.
* `SelectionUtil::analyzeSelectionBuffer` and the selection visitors
  (src/selection.cpp, include/selection.tcc).

C++ types are modelled as follows: `GLuint` names and raw depths are `Nat`
(they are only copied and compared); runtime class identities (`type_info`)
are `Nat` tags, distinct classes having distinct tags even when related by
inheritance; `GLfloat` depth values `raw / (float)0xffffffff` are modelled
as exact rationals `raw / 4294967295` (the division by a fixed positive
constant, which is all the comparator observes).
-/

/-! ## `Any` — include/any.tcc -/

/-- Model of `Any`: `handle` is `NULL` or a `Handle<T>` holding the stored
reference.  The `type_info` of `T` is the `Nat` tag (first component), the
referenced value is identified by the second component. -/
structure AnyBox where
  handle : Option (Nat × Nat)
  deriving DecidableEq, Repr

/-- Constructor `Any::Any()` — empty box. -/
def AnyBox.empty : AnyBox := ⟨none⟩

/-- Member `Any::set<T>(value)` — deletes any previous handle and stores a
`Handle<T>` on `value`. -/
def AnyBox.set (_ : AnyBox) (tag : Nat) (ref : Nat) : AnyBox :=
  ⟨some (tag, ref)⟩

/-- Member `Any::get<T>()` — `NULL` when empty; otherwise compares `typeid(T)`
with the stored handle's `type()` and returns the stored reference only on
exact equality. -/
def AnyBox.get (b : AnyBox) (tag : Nat) : Option Nat :=
  match b.handle with
  | none => none
  | some (t, r) => if tag = t then some r else none

/-- Member `Any::clear()`. -/
def AnyBox.clear (_ : AnyBox) : AnyBox := ⟨none⟩

/-- Member `Any::isSet()`. -/
def AnyBox.isSet (b : AnyBox) : Bool := b.handle.isSome

/-! ## Render tree and hierarchical traversal — src/renderable.cpp

`RTree α` models the shape of a render tree: `leaf` is a node whose
`accept` is `LeafRenderable::accept`, `comp` a node whose `accept` is
`CompositeRenderable::accept`, with its ordered `components` vector.
The node information `α` carries whatever data a claim needs (an id, or
selectable name/payload data). -/

inductive RTree (α : Type) where
  | leaf : α → RTree α
  | comp : α → List (RTree α) → RTree α

/-- A `HierarchicalVisitor<IRenderable>` as the tree sees it: three hooks.
The C++ visitors of interest are stateful objects, so each hook threads an
explicit state `σ` and returns the C++ `bool` result. -/
structure StVisitor (σ α : Type) where
  visitEnter : σ → α → Bool × σ
  visitLeaf  : σ → α → Bool × σ
  visitLeave : σ → α → Bool × σ

/-- Record of one hook invocation performed during a traversal:
`enter a` = `visitEnter` on composite node `a`, `leafv a` = `visitLeaf` on
leaf `a`, `leave a` = `visitLeave` on composite `a`. -/
inductive VEvent (α : Type) where
  | enter : α → VEvent α
  | leafv : α → VEvent α
  | leave : α → VEvent α
  deriving DecidableEq, Repr

mutual
/-- Functions `LeafRenderable::accept` / `CompositeRenderable::accept`
(src/renderable.cpp).  A leaf returns `visitLeaf(this)`.  A composite
calls `visitEnter(this)`; on `false` it returns `false`; otherwise it
runs `accept` on each component in order, breaking at the first `false`,
and returns `visitLeave(this)`.  Besides the returned `bool` and final
state, the model collects the list of hook invocations so that claims
about which hooks fire can be stated. -/
def accept (v : StVisitor σ α) : RTree α → σ → Bool × σ × List (VEvent α)
  | .leaf a, s =>
    let (b, s') := v.visitLeaf s a
    (b, s', [.leafv a])
  | .comp a cs, s =>
    let (b, s1) := v.visitEnter s a
    if b then
      let (s2, evs) := acceptChildren v cs s1
      let (b', s3) := v.visitLeave s2 a
      (b', s3, .enter a :: (evs ++ [.leave a]))
    else (false, s1, [.enter a])

/-- The component loop of `CompositeRenderable::accept`:
`for (it = components.begin(); ...) if (!(*it)->accept(visitor)) break;`. -/
def acceptChildren (v : StVisitor σ α) : List (RTree α) → σ → σ × List (VEvent α)
  | [], s => (s, [])
  | c :: cs, s =>
    let (b, s', evs) := accept v c s
    if b then
      let (s'', evs') := acceptChildren v cs s'
      (s'', evs ++ evs')
    else (s', evs)
end

/-- A stateless visitor whose `visitEnter` always returns `false`
(and whose other hooks return `true`), used to instantiate traversal
theorems on concrete trees. -/
def constFalseEnterVisitor : StVisitor Unit Nat :=
  ⟨fun s _ => (false, s), fun s _ => (true, s), fun s _ => (true, s)⟩

/-! ## Five-phase render pipeline — src/renderable.cpp

`IRenderable::fullRender` calls `configure`, `loadTransform`, `render`,
`unloadTransform`, `deconfigure` in that order.
`CompositeRenderable::render` calls `fullRender` on each component in
order.  The model records, for a tree whose node information is an id,
the sequence of phase invocations `(phase, node id)`. -/

inductive RPhase where
  | configure
  | loadTransform
  | render
  | unloadTransform
  | deconfigure
  deriving DecidableEq, Repr

/-- One phase invocation on one node. -/
structure PEvent where
  phase : RPhase
  node : Nat
  deriving DecidableEq, Repr

/-- The id stored at the root of a tree. -/
def RTree.rootId : RTree Nat → Nat
  | .leaf n => n
  | .comp n _ => n

mutual
/-- The `render` phase of one node: a leaf submits its primitives; a
composite runs the component loop of `CompositeRenderable::render`. -/
def renderTrace : RTree Nat → List PEvent
  | .leaf n => [⟨.render, n⟩]
  | .comp n cs => ⟨.render, n⟩ :: renderChildren cs

/-- The loop of `CompositeRenderable::render`:
`for (it = components.begin(); ...) (*it)->fullRender(renderingMode);`,
with each component's `IRenderable::fullRender` — `configure`,
`loadTransform`, `render`, `unloadTransform`, `deconfigure` in order —
spelled inline (see `fullRenderTrace` below for the block by itself). -/
def renderChildren : List (RTree Nat) → List PEvent
  | [] => []
  | c :: cs =>
    (⟨.configure, c.rootId⟩ :: ⟨.loadTransform, c.rootId⟩ ::
      (renderTrace c ++ [⟨.unloadTransform, c.rootId⟩, ⟨.deconfigure, c.rootId⟩]))
      ++ renderChildren cs
end

/-- Function `IRenderable::fullRender(renderingMode)`
(src/renderable.cpp lines 25-32): the five phases in order.  The
`render` phase of the node expands, for a composite, into the
components' own `fullRender` blocks. -/
def fullRenderTrace (t : RTree Nat) : List PEvent :=
  ⟨.configure, t.rootId⟩ :: ⟨.loadTransform, t.rootId⟩ ::
    (renderTrace t ++ [⟨.unloadTransform, t.rootId⟩, ⟨.deconfigure, t.rootId⟩])

/-! ## Runtime-type dispatch — include/visitor.tcc

`SpecializedHierachicalVisitor<TBase>` resolves, per hook, a callback by
the most derived runtime type of the visited object.  The model:

* a visited object `RNode` carries its runtime class tag `rt` (the
  `typeid(*that)` of the most derived class, a `Nat`) and an id;
* `castOk r t` tells whether `dynamic_cast` from an object of runtime
  class `r` to the class with tag `t` succeeds (i.e. `t` is `r` itself or
  an accessible unambiguous base of `r`); it is a parameter of the model;
* a registered callback takes the (possibly `NULL`) downcast pointer —
  in the model the same object, since downcasting does not change the
  object — and returns `bool`;
* `type_info` keys compare by identity, one per class: `Nat` tags. -/

/-- A visited object: runtime class tag and identity. -/
structure RNode where
  rt : Nat
  id : Nat
  deriving DecidableEq, Repr

/-- A specialization callback `sigc::slot<bool,TSpecialized*>`; it may
receive `NULL` (`none`). -/
def Cb : Type := Option RNode → Bool

/-- Function `DynamicCastArgFunctor<bool,TBase,TSpecialized>::run` (visitor.tcc):
passes `NULL` through to the callback; otherwise `dynamic_cast`s the
argument to the specialization type `tag`, throwing `bad_cast`
(`Except.error ()`) when the cast yields `NULL`. -/
def dynCastRun (castOk : Nat → Nat → Bool) (tag : Nat) (cb : Cb)
    (arg : Option RNode) : Except Unit Bool :=
  match arg with
  | none => .ok (cb none)
  | some a => if castOk a.rt tag then .ok (cb (some a)) else .error ()

/-- The two parallel registration structures of one hook: the exact
`type_info`-keyed `std::map` and the registration-ordered `std::vector`,
both holding the `DynamicCastArgFunctor`-wrapped callbacks. -/
structure Specializations where
  exactMap : List (Nat × Cb)
  orderList : List (Nat × Cb)

/-- No registrations (freshly constructed visitor). -/
def Specializations.empty : Specializations := ⟨[], []⟩

/-- Model of `std::map::insert`: inserts only if the key is not already present
(an existing entry is never overwritten).  Position in the backing list
is irrelevant because lookups use `find?` by key. -/
def mapInsert (m : List (Nat × Cb)) (key : Nat) (cb : Cb) : List (Nat × Cb) :=
  if (m.find? (fun p => p.1 == key)).isSome then m else m ++ [(key, cb)]

/-- Function `SpecializedHierachicalVisitor::addSpecialization` (visitor.tcc):
`exactMap.insert(pair); orderList.push_back(pair);` where the pair keys
`&typeid(TSpecialized)` to the wrapped callback. -/
def addSpecialization (s : Specializations) (tag : Nat) (cb : Cb) :
    Specializations :=
  ⟨mapInsert s.exactMap tag cb, s.orderList ++ [(tag, cb)]⟩

/-- The ordered-trial loop of `SpecializedHierachicalVisitor::visit`:
try each registered callback in order; a `bad_cast` from the wrapped
functor is caught and the next registration is tried; the first
successful call is returned (`some b`); `none` means the loop fell
through. -/
def visitLoop (castOk : Nat → Nat → Bool) (a : RNode) :
    List (Nat × Cb) → Option Bool
  | [] => none
  | e :: es =>
    match dynCastRun castOk e.1 e.2 (some a) with
    | .ok b => some b
    | .error _ => visitLoop castOk a es

/-- Function `SpecializedHierachicalVisitor::visit` (visitor.tcc): for a non-null
object, first an exact `typeid(*that)` lookup in the map (the resulting
call is *not* inside the `try`, so an error there would propagate — it
cannot, because the declared type is the object's own class); then the
ordered trials; if nothing matched, or the object is null, delegate to
the fallback visitor's hook when one is set, else return the configured
default. -/
def visit (castOk : Nat → Nat → Bool) (s : Specializations)
    (defaultReturn : Bool) (fallback : Option Cb) (that : Option RNode) :
    Except Unit Bool :=
  match that with
  | some a =>
    match s.exactMap.find? (fun p => p.1 == a.rt) with
    | some p => dynCastRun castOk p.1 p.2 (some a)
    | none =>
      match visitLoop castOk a s.orderList with
      | some b => .ok b
      | none =>
        match fallback with
        | some f => .ok (f (some a))
        | none => .ok defaultReturn
  | none =>
    match fallback with
    | some f => .ok (f none)
    | none => .ok defaultReturn

/-! ## Selection visitors — include/selection.tcc, src/selection.cpp

`TypedSelectionVisitor<TDesired>` derives
`SpecializedHierachicalVisitor<IRenderable>(true, true, true)` (all three
per-hook defaults `true`, no fallback visitor) and registers exactly one
specialization per hook: enter and leave for
`SelectableCompositeRenderable*`, leaf for `SelectableLeafRenderable*`.
Hence the dispatched outcome of each hook is: the specialized body when
the visited node is (a subclass of) the corresponding selectable class —
both via the exact tier for the classes themselves and via the ordered
`dynamic_cast` tier for subclasses such as `WallRenderer` — and the
default `true` when the node is not selectable (every registered cast
fails, no fallback).  The node information of a selection tree is
`Option (Nat × AnyBox)`: `some (name, payload)` for a selectable node,
`none` for a non-selectable one.

The C++ callbacks read `desiredName[currentLevel]` (unchecked
`std::vector::operator[]`) *before* any bound test.  The model performs
the same read with `List.get?`; when the index is out of bounds — which
in C++ is undefined behaviour — it records the violation in the `oob`
state flag (the value returned in that case is unobservable junk; no
theorem below relies on the behaviour of an `oob` run beyond the flag
itself). -/

/-- Node information of a selection tree: name and payload when the node
is selectable. -/
abbrev SelInfo : Type := Option (Nat × AnyBox)

/-- State of a running `TypedSelectionVisitor<TDesired>`: the fields
`found`, `selectedObject` (a `TDesired*`), `desiredName`, `currentLevel`
of selection.tcc, plus the `oob` undefined-behaviour marker described
above. -/
structure TSelState where
  found : Bool
  selectedObject : Option Nat
  desiredName : List Nat
  currentLevel : Nat
  oob : Bool
  deriving DecidableEq, Repr

/-- Initial state built by the `TypedSelectionVisitor` constructor. -/
def TSelState.init (path : List Nat) : TSelState :=
  ⟨false, none, path, 0, false⟩

/-- Callback `TypedSelectionVisitor<TDesired>::visitSelectableEnter`
(selection.tcc), dispatched: `none` (non-selectable composite) returns
the default `true`.  Otherwise: compare the node name with
`desiredName[currentLevel]`; on mismatch return `false`; on match
increment the level; if the path is not fully consumed return `!found`;
else fetch `getPayload().get<TDesired>()`, record it when non-null, and
return `false`.  `θ` is the type tag of `TDesired`. -/
def tsvEnter (θ : Nat) (s : TSelState) (info : SelInfo) : Bool × TSelState :=
  match info with
  | none => (true, s)
  | some (name, payload) =>
    match s.desiredName.get? s.currentLevel with
    | none => (false, { s with oob := true })
    | some want =>
      if name = want then
        let s1 := { s with currentLevel := s.currentLevel + 1 }
        if s1.currentLevel < s1.desiredName.length then
          (!s1.found, s1)
        else
          match payload.get θ with
          | some r => (false, { s1 with found := true, selectedObject := some r })
          | none => (false, s1)
      else (false, s)

/-- Callback `TypedSelectionVisitor<TDesired>::visitSelectableLeaf`
(selection.tcc), dispatched: like the enter hook, except that the two
terminal branches return `!found` (with `found` as just updated) instead
of `false`, and a name mismatch returns `!found`. -/
def tsvLeaf (θ : Nat) (s : TSelState) (info : SelInfo) : Bool × TSelState :=
  match info with
  | none => (true, s)
  | some (name, payload) =>
    match s.desiredName.get? s.currentLevel with
    | none => (false, { s with oob := true })
    | some want =>
      if name = want then
        let s1 := { s with currentLevel := s.currentLevel + 1 }
        if s1.currentLevel < s1.desiredName.length then
          (!s1.found, s1)
        else
          match payload.get θ with
          | some r =>
            let s2 := { s1 with found := true, selectedObject := some r }
            (!s2.found, s2)
          | none => (!s1.found, s1)
      else (!s.found, s)

/-- Callback `TypedSelectionVisitor<TDesired>::visitSelectableLeave`
(selection.tcc), dispatched: `return !found;`, never touching
`currentLevel`; default `true` on non-selectable composites. -/
def tsvLeave (_ : Nat) (s : TSelState) (info : SelInfo) : Bool × TSelState :=
  match info with
  | none => (true, s)
  | some _ => (!s.found, s)

/-- The three dispatched hooks of `TypedSelectionVisitor<TDesired>`
bundled as a visitor over selection trees. -/
def typedSelectionVisitor (θ : Nat) : StVisitor TSelState SelInfo :=
  ⟨tsvEnter θ, tsvLeaf θ, tsvLeave θ⟩

/-- Runs `tree.accept(TypedSelectionVisitor<TDesired>(path))` and returns
the visitor's final state (queried through `isSelectedObjectFound()` and
`getSelectedObject()`). -/
def runTypedSelection (θ : Nat) (path : List Nat) (t : RTree SelInfo) :
    TSelState :=
  (accept (typedSelectionVisitor θ) t (TSelState.init path)).2.1

/-- State of a running `SelectionVisitor` (src/selection.cpp): as the
typed visitor, but `selectedObject` is an `Any` copy of the payload. -/
structure USelState where
  found : Bool
  selectedObject : AnyBox
  desiredName : List Nat
  currentLevel : Nat
  oob : Bool
  deriving DecidableEq, Repr

/-- Callback `SelectionVisitor::visitSelectableEnter` (src/selection.cpp lines
132-150), dispatched: identical to the typed enter hook except that the
payload test is `data.isSet()` and the whole `Any` is stored. -/
def usvEnter (s : USelState) (info : SelInfo) : Bool × USelState :=
  match info with
  | none => (true, s)
  | some (name, payload) =>
    match s.desiredName.get? s.currentLevel with
    | none => (false, { s with oob := true })
    | some want =>
      if name = want then
        let s1 := { s with currentLevel := s.currentLevel + 1 }
        if s1.currentLevel < s1.desiredName.length then
          (!s1.found, s1)
        else
          if payload.isSet then
            (false, { s1 with found := true, selectedObject := payload })
          else (false, s1)
      else (false, s)

/-! ## Hit-buffer decoding — src/selection.cpp

`SelectionUtil::analyzeSelectionBuffer(resultCount, selectionBuffer)`
walks the raw `GLuint` buffer with a moving pointer: each entry is
`[nameCount, depthMinRaw, depthMaxRaw, name_1 ... name_nameCount]`; the
two raw depths are divided by `(float)0xffffffff`, the names are copied
in order, the pointer advances by `3 + nameCount`.  Finally the hit
vector is sorted with `std::sort` under `Hit::operator<`, which compares
`zMin`.  The buffer is modelled as a total function `Nat → Nat` (the
C++ code trusts the backend to have filled enough words).  `std::sort`
guarantees only a permutation of the input that is sorted under the
comparator — it is *not* a stable sort — so the decoded-and-sorted
result is characterized by the relation `AnalyzeOutcome`. -/

/-- Record `SelectionUtil::Hit`.  The raw depth words are kept; the
`float` fields `zMin`/`zMax` of the C++ struct are recovered by the
projections below. -/
structure Hit where
  zMinRaw : Nat
  zMaxRaw : Nat
  nameHierarchy : List Nat
  deriving DecidableEq, Repr

/-- Field `zMin` of `SelectionUtil::Hit`: `ptr[1] / (float)0xffffffff`,
as an exact rational. -/
def Hit.zMin (h : Hit) : ℚ := (h.zMinRaw : ℚ) / 4294967295

/-- Field `zMax` of `SelectionUtil::Hit`: `ptr[2] / (float)0xffffffff`,
as an exact rational. -/
def Hit.zMax (h : Hit) : ℚ := (h.zMaxRaw : ℚ) / 4294967295

/-- Comparator `SelectionUtil::Hit::operator<` (src/selection.cpp lines
45-48): `this->zMin < other.zMin`. -/
def Hit.lt (a b : Hit) : Prop := a.zMin < b.zMin

/-- Reads `nameCount` consecutive buffer words starting at `ptr` — the
`hit.nameHierarchy.insert(..., ptr, ptr+nameCount)` copy. -/
def readNames (buf : Nat → Nat) (ptr : Nat) : Nat → List Nat
  | 0 => []
  | k + 1 => buf ptr :: readNames buf (ptr + 1) k

/-- The decoding loop of `analyzeSelectionBuffer`: one iteration per
result, consuming `[nameCount, depthMinRaw, depthMaxRaw, names...]` and
advancing the pointer by `3 + nameCount`. -/
def analyzeLoop (buf : Nat → Nat) : Nat → Nat → List Hit
  | 0, _ => []
  | i + 1, ptr =>
    let nameCount := buf ptr
    let hit : Hit := ⟨buf (ptr + 1), buf (ptr + 2), readNames buf (ptr + 3) nameCount⟩
    hit :: analyzeLoop buf i (ptr + 3 + nameCount)

/-- The unsorted hit list accumulated by `analyzeSelectionBuffer` before
the final `std::sort` (for `resultCount = 0` the loop body is skipped and
the list stays empty). -/
def decodeHits (resultCount : Nat) (buf : Nat → Nat) : List Hit :=
  analyzeLoop buf resultCount 0

/-- The `is_sorted` postcondition of `std::sort` under `Hit::operator<`:
no adjacent pair is inverted, i.e. `zMin` is non-decreasing. -/
def SortedByZMin (l : List Hit) : Prop :=
  l.Chain' (fun a b => a.zMin ≤ b.zMin)

/-- Postcondition of `analyzeSelectionBuffer`: `out` is what the `hits`
vector may hold afterwards — a permutation of the decoded entries that is
sorted under the comparator.  This is everything `std::sort` guarantees
(stability is not part of its contract). -/
def AnalyzeOutcome (resultCount : Nat) (buf : Nat → Nat) (out : List Hit) :
    Prop :=
  out.Perm (decodeHits resultCount buf) ∧ SortedByZMin out

/-- Binary layout of one hit entry, as produced by the backend:
`[nameCount, depthMinRaw, depthMaxRaw, name_1 ... name_nameCount]`. -/
def encodeEntry (h : Hit) : List Nat :=
  h.nameHierarchy.length :: h.zMinRaw :: h.zMaxRaw :: h.nameHierarchy

/-- A whole buffer: the entries laid out consecutively. -/
def encodeBuffer (hits : List Hit) : List Nat :=
  (hits.map encodeEntry).flatten

/-- View of a finite word list as the total buffer function (words past
the filled region read as 0; the decoder never reaches them on a
well-formed call). -/
def bufferFun (l : List Nat) : Nat → Nat := fun i => l.getD i 0

/-! ## Helper lemmas -/

/-- Closed form of the component loop of `CompositeRenderable::render`:
the concatenation, in component order, of the components' `fullRender`
blocks. -/
theorem renderChildren_eq_flatten (cs : List (RTree Nat)) :
    renderChildren cs = (cs.map fullRenderTrace).flatten := by
  induction cs with
  | nil => simp [renderChildren]
  | cons c cs ih => simp [renderChildren, ih, fullRenderTrace]

/-- A sorted hit list has its head `zMin`-minimal among the tail. -/
theorem zMin_head_min :
    ∀ (t : List Hit) (a : Hit), SortedByZMin (a :: t) →
      ∀ x ∈ t, a.zMin ≤ x.zMin
  | [], _, _, x, hx => absurd hx (List.not_mem_nil x)
  | b :: t, a, h, x, hx => by
    have hab : a.zMin ≤ b.zMin := (List.chain'_cons.mp h).1
    rcases List.mem_cons.mp hx with hxb | hxt
    · exact hxb ▸ hab
    · exact le_trans hab (zMin_head_min t b (List.chain'_cons.mp h).2 x hxt)

/-- Two sorted permutations of each other are equal when one of them has
pairwise distinct `zMin` keys. -/
theorem sorted_perm_eq_of_zMin_distinct :
    ∀ (l2 l1 : List Hit), l1.Perm l2 → SortedByZMin l1 → SortedByZMin l2 →
      l2.Pairwise (fun a b => a.zMin ≠ b.zMin) → l1 = l2
  | [], l1, hp, _, _, _ => hp.eq_nil
  | b :: t2, l1, hp, hs1, hs2, hd => by
    match l1, hp with
    | [], hp => exact absurd hp.symm (by simp)
    | a :: t1, hp =>
      have hab : a = b := by
        by_contra hne
        have hat2 : a ∈ t2 := by
          have := hp.subset (List.mem_cons_self a t1)
          rcases List.mem_cons.mp this with h | h
          · exact absurd h hne
          · exact h
        have hbt1 : b ∈ a :: t1 := hp.mem_iff.mpr (List.mem_cons_self b t2)
        have hba : a.zMin ≤ b.zMin := by
          rcases List.mem_cons.mp hbt1 with h | h
          · exact le_of_eq (by rw [h])
          · exact zMin_head_min t1 a hs1 b h
        have hbb : b.zMin ≤ a.zMin := zMin_head_min t2 b hs2 a hat2
        have : b.zMin ≠ a.zMin := (List.pairwise_cons.mp hd).1 a hat2
        exact this (le_antisymm hbb hba)
      subst hab
      have htp : t1.Perm t2 := hp.cons_inv
      have := sorted_perm_eq_of_zMin_distinct t2 t1 htp
        ((List.chain'_cons'.mp hs1).2) ((List.chain'_cons'.mp hs2).2)
        (List.pairwise_cons.mp hd).2
      rw [this]

/-! ## Claim C5 — exact-type retrieval of `Any` -/

/-- C5: storing a value of type `A` in an `Any` box makes `get<A>()`
return exactly that value, `get<B>()` return `NULL` for every type `B`
distinct from `A` (base/derived classes included: distinct classes have
distinct `type_info`), and `get` on a never-set or cleared box returns
`NULL`. -/
theorem any_get_exact_type_only (A B a : Nat) (box box2 : AnyBox)
    (h : B ≠ A) :
    (box.set A a).get A = some a ∧
    (box.set A a).get B = none ∧
    AnyBox.empty.get B = none ∧
    (box2.clear).get B = none := by
  refine ⟨?_, ?_, rfl, rfl⟩ <;> simp [AnyBox.set, AnyBox.get, h]

/-- Witness for C5 at `A = 0`, `B = 1`, `a = 5`. -/
theorem any_get_exact_type_only_witness :
    (AnyBox.empty.set 0 5).get 0 = some 5 ∧
    (AnyBox.empty.set 0 5).get 1 = none ∧
    AnyBox.empty.get 1 = none ∧
    (AnyBox.empty.clear).get 1 = none :=
  any_get_exact_type_only 0 1 5 AnyBox.empty AnyBox.empty (by decide)

/-! ## Claim C7 — `visitEnter` returning false aborts the subtree -/

/-- C7: when the visitor's `visitEnter` answers `false` on a composite
node, `accept` returns `false`, no hook fires for any node of the
subtree (the only recorded invocation is that `visitEnter`), and the
composite's own `visitLeave` is not called. -/
theorem visitEnter_false_aborts_subtree {σ α : Type} (v : StVisitor σ α)
    (a : α) (cs : List (RTree α)) (s : σ)
    (h : (v.visitEnter s a).1 = false) :
    accept v (RTree.comp a cs) s =
      (false, (v.visitEnter s a).2, [VEvent.enter a]) := by
  rcases hv : v.visitEnter s a with ⟨b, s1⟩
  have hb : b = false := by rw [hv] at h; exact h
  subst hb
  simp [accept, hv]

/-- Witness for C7: a visitor that always refuses entry, on a two-node
tree. -/
theorem visitEnter_false_aborts_subtree_witness :
    (constFalseEnterVisitor.visitEnter () 1).1 = false ∧
    accept constFalseEnterVisitor (RTree.comp 1 [RTree.leaf 2]) () =
      (false, (constFalseEnterVisitor.visitEnter () 1).2, [VEvent.enter 1]) :=
  ⟨rfl, visitEnter_false_aborts_subtree constFalseEnterVisitor 1
    [RTree.leaf 2] () rfl⟩

/-! ## Claim C8 — strict five-phase sequencing of composite rendering -/

/-- C8: a full render pass over a composite node runs, for each
component in list order, the complete block
`configure, loadTransform, render, unloadTransform, deconfigure`
(first conjunct), each `render` phase being the head of its node's
`render` expansion (second conjunct); and the pass trace splits as the
concatenation of the components' whole blocks in order, so for `i < j`
every event of component `i` — its `deconfigure` included — precedes
every event of component `j` — its `render` included (third
conjunct). -/
theorem composite_render_sequencing (n : Nat) (cs : List (RTree Nat))
    (i j : Nat) (hi : i < cs.length) (hj : j < cs.length) (hij : i < j) :
    (∀ t : RTree Nat, fullRenderTrace t =
        ⟨.configure, t.rootId⟩ :: ⟨.loadTransform, t.rootId⟩ ::
          (renderTrace t ++
            [⟨.unloadTransform, t.rootId⟩, ⟨.deconfigure, t.rootId⟩])) ∧
    (∀ t : RTree Nat, (renderTrace t).head? = some ⟨.render, t.rootId⟩) ∧
    renderTrace (RTree.comp n cs) =
      ⟨.render, n⟩ ::
        (((cs.take i).map fullRenderTrace).flatten ++
          (fullRenderTrace cs[i] ++
            ((((cs.drop (i + 1)).take (j - i - 1)).map fullRenderTrace).flatten ++
              (fullRenderTrace cs[j] ++
                ((cs.drop (j + 1)).map fullRenderTrace).flatten)))) := by
  refine ⟨fun t => rfl, fun t => by cases t <;> rfl, ?_⟩
  have hdec : cs = cs.take i ++
      (cs[i] :: ((cs.drop (i + 1)).take (j - i - 1) ++
        (cs[j] :: cs.drop (j + 1)))) := by
    conv_lhs => rw [← List.take_append_drop i cs]
    rw [List.drop_eq_getElem_cons hi]
    congr 1
    congr 1
    conv_lhs =>
      rw [← List.take_append_drop (j - i - 1) (cs.drop (i + 1))]
    congr 1
    rw [List.drop_drop]
    have hji : i + 1 + (j - i - 1) = j := by omega
    rw [hji, List.drop_eq_getElem_cons hj]
  have hrt : renderTrace (RTree.comp n cs) = ⟨.render, n⟩ :: renderChildren cs :=
    rfl
  rw [hrt, renderChildren_eq_flatten]
  conv_lhs => rw [hdec]
  simp only [List.map_append, List.map_cons, List.flatten_append,
    List.flatten_cons, List.append_assoc]

/-- Witness for C8 at a composite with two leaf components,
`i = 0 < j = 1`. -/
theorem composite_render_sequencing_witness :
    renderTrace (RTree.comp 99 [RTree.leaf 10, RTree.leaf 20]) =
      ⟨.render, 99⟩ ::
        ((([] : List (RTree Nat)).map fullRenderTrace).flatten ++
          (fullRenderTrace (RTree.leaf 10) ++
            ((([] : List (RTree Nat)).map fullRenderTrace).flatten ++
              (fullRenderTrace (RTree.leaf 20) ++
                (([] : List (RTree Nat)).map fullRenderTrace).flatten)))) := by
  have h := (composite_render_sequencing 99 [RTree.leaf 10, RTree.leaf 20]
    0 1 (by decide) (by decide) (by decide)).2.2
  simpa using h

/-! ## Dispatch helper lemmas -/

/-- The ordered trial falls through exactly when every registered cast
fails on the visited object. -/
theorem visitLoop_eq_none_iff (castOk : Nat → Nat → Bool) (a : RNode) :
    ∀ l : List (Nat × Cb),
      visitLoop castOk a l = none ↔ ∀ e ∈ l, castOk a.rt e.1 = false
  | [] => by simp [visitLoop]
  | e :: es => by
    rcases e with ⟨tag, cb⟩
    by_cases hc : castOk a.rt tag
    · simp [visitLoop, dynCastRun, hc]
    · simp [visitLoop, dynCastRun, hc,
        visitLoop_eq_none_iff castOk a es]

/-- Appending registrations does not change an ordered trial that has
already resolved; an unresolved one proceeds with the appended part. -/
theorem visitLoop_append (castOk : Nat → Nat → Bool) (a : RNode) :
    ∀ l1 l2 : List (Nat × Cb),
      visitLoop castOk a (l1 ++ l2) =
        match visitLoop castOk a l1 with
        | some b => some b
        | none => visitLoop castOk a l2
  | [], l2 => by simp [visitLoop]
  | e :: es, l2 => by
    simp only [List.cons_append, visitLoop]
    cases dynCastRun castOk e.1 e.2 (some a) with
    | ok b => rfl
    | error _ => exact visitLoop_append castOk a es l2

/-- Key already inserted: a later `std::map::insert` with the same key
leaves the map unchanged. -/
theorem find?_mapInsert_self (m : List (Nat × Cb)) (tag : Nat) (cb : Cb) :
    ((mapInsert m tag cb).find? (fun p => p.1 == tag)).isSome := by
  unfold mapInsert
  by_cases h : (m.find? (fun p => p.1 == tag)).isSome
  · simp [h]
  · simp [h, List.find?_append]

/-! ## Claim C3 — exact match wins, then ordered first-cast-wins -/

/-- Model `type_info` tag of the example class `Animal`. -/
def animalTag : Nat := 0

/-- Model `type_info` tag of the example class `Dog`, derived from
`Animal`. -/
def dogTag : Nat := 1

/-- Table of `dynamic_cast` success for the `Animal`/`Dog` hierarchy:
a cast succeeds to the object's own class, and from `Dog` up to
`Animal`. -/
def castOkAD : Nat → Nat → Bool := fun r t =>
  (r == t) || (r == dogTag && t == animalTag)

/-- C3: dispatch of a hook on a non-null node: (1) when the node's exact
runtime type is registered, that registration's callback is invoked;
(2) otherwise the registrations are tried in order and the first whose
declared type the node casts to is invoked, later ones ignored;
(3) concretely, with an earlier registration for base `Animal` and a
registration for `Dog`, visiting a `Dog` invokes the `Dog` callback
(exact-match tier), not the structurally-also-matching `Animal` one. -/
theorem dispatch_exact_then_ordered
    (castOk : Nat → Nat → Bool) (s : Specializations) (dflt : Bool)
    (fb : Option Cb) (a : RNode) :
    (∀ tag cb,
      s.exactMap.find? (fun p => p.1 == a.rt) = some (tag, cb) →
      castOk a.rt a.rt = true →
      visit castOk s dflt fb (some a) = .ok (cb (some a))) ∧
    (∀ l1 tag cb l2,
      s.exactMap.find? (fun p => p.1 == a.rt) = none →
      s.orderList = l1 ++ (tag, cb) :: l2 →
      (∀ e ∈ l1, castOk a.rt e.1 = false) →
      castOk a.rt tag = true →
      visit castOk s dflt fb (some a) = .ok (cb (some a))) ∧
    (∀ cbAnimal cbDog : Cb,
      visit castOkAD
        (addSpecialization
          (addSpecialization Specializations.empty animalTag cbAnimal)
          dogTag cbDog)
        dflt fb (some ⟨dogTag, 0⟩) = .ok (cbDog (some ⟨dogTag, 0⟩))) := by
  refine ⟨?_, ?_, ?_⟩
  · intro tag cb hfind hrefl
    have htag : tag = a.rt := by simpa using List.find?_some hfind
    simp [visit, hfind, dynCastRun, htag, hrefl]
  · intro l1 tag cb l2 hnone horder hfail hcast
    have h1 : visitLoop castOk a l1 = none :=
      (visitLoop_eq_none_iff castOk a l1).mpr hfail
    simp only [visit, hnone]
    rw [horder, visitLoop_append, h1]
    simp [visitLoop, dynCastRun, hcast]
  · intro cbAnimal cbDog
    rfl

/-- Witness for C3: a single exact registration for `Dog`, visited with
a `Dog` object, runs the registered callback. -/
theorem dispatch_exact_then_ordered_witness :
    visit castOkAD
      (addSpecialization Specializations.empty dogTag (fun _ => true))
      false none (some ⟨dogTag, 0⟩) = .ok true := by
  have h := (dispatch_exact_then_ordered castOkAD
    (addSpecialization Specializations.empty dogTag (fun _ => true))
    false none ⟨dogTag, 0⟩).1 dogTag (fun _ => true) rfl rfl
  simpa using h

/-! ## Claim C6 — fallback / default path, downcast failures contained -/

/-- C6: when no specialization applies to a hook invocation — the node is
null, or every registered downcast fails — the configured fallback
visitor's hook answers for the node (conjuncts 2 and 3), and without a
fallback the constructor-configured per-hook default boolean is returned
(conjuncts 4 and 5).  A failing downcast never escapes: it only moves
the ordered trial to the next registration (conjunct 1), and the
dispatcher as a whole always returns an ordinary `bool` (conjunct 6;
the hypothesis is that `dynamic_cast` to the object's own class
succeeds, which C++ guarantees). -/
theorem dispatch_fallback_default_no_throw
    (castOk : Nat → Nat → Bool) (s : Specializations) (dflt : Bool)
    (a : RNode) :
    (∀ tag cb es, castOk a.rt tag = false →
      visitLoop castOk a ((tag, cb) :: es) = visitLoop castOk a es) ∧
    (∀ f : Cb,
      s.exactMap.find? (fun p => p.1 == a.rt) = none →
      (∀ e ∈ s.orderList, castOk a.rt e.1 = false) →
      visit castOk s dflt (some f) (some a) = .ok (f (some a))) ∧
    (∀ f : Cb, visit castOk s dflt (some f) none = .ok (f none)) ∧
    (s.exactMap.find? (fun p => p.1 == a.rt) = none →
      (∀ e ∈ s.orderList, castOk a.rt e.1 = false) →
      visit castOk s dflt none (some a) = .ok dflt) ∧
    (visit castOk s dflt none none = .ok dflt) ∧
    (∀ fb : Option Cb, castOk a.rt a.rt = true →
      ∃ b : Bool, visit castOk s dflt fb (some a) = .ok b) := by
  refine ⟨?_, ?_, fun f => rfl, ?_, rfl, ?_⟩
  · intro tag cb es hfailed
    simp [visitLoop, dynCastRun, hfailed]
  · intro f hnone hfail
    have h1 : visitLoop castOk a s.orderList = none :=
      (visitLoop_eq_none_iff castOk a s.orderList).mpr hfail
    simp [visit, hnone, h1]
  · intro hnone hfail
    have h1 : visitLoop castOk a s.orderList = none :=
      (visitLoop_eq_none_iff castOk a s.orderList).mpr hfail
    simp [visit, hnone, h1]
  · intro fb hrefl
    simp only [visit]
    cases hfind : s.exactMap.find? (fun p => p.1 == a.rt) with
    | some p =>
      have htag : p.1 = a.rt := by
        have := List.find?_some hfind
        simpa using this
      refine ⟨p.2 (some a), ?_⟩
      simp [dynCastRun, htag, hrefl]
    | none =>
      cases hloop : visitLoop castOk a s.orderList with
      | some b => exact ⟨b, rfl⟩
      | none => cases fb with
        | some f => exact ⟨f (some a), rfl⟩
        | none => exact ⟨dflt, rfl⟩

/-- Witness for C6: no registration casts from runtime class 5, so the
configured fallback hook decides. -/
theorem dispatch_fallback_default_no_throw_witness :
    visit castOkAD
      (addSpecialization Specializations.empty dogTag (fun _ => true))
      true (some (fun _ => false)) (some ⟨5, 0⟩) = .ok false := by
  have h := (dispatch_fallback_default_no_throw castOkAD
    (addSpecialization Specializations.empty dogTag (fun _ => true))
    true ⟨5, 0⟩).2.1 (fun _ => false) rfl
    (fun e he => by rw [List.mem_singleton.mp he]; rfl)
  simpa using h

/-! ## Claim C10 — duplicate exact-type registration: first wins -/

/-- C10: registering a second callback for a specialization type already
registered changes nothing observable: `std::map::insert` keeps the
first entry, and in the ordered list the earlier entry with the same
declared type resolves (or fails) first, so dispatching any node through
any hook after the duplicate registration gives the same result as
before it — the duplicate callback `cb2` is never invoked by either
tier. -/
theorem duplicate_registration_first_wins
    (s0 : Specializations) (tag : Nat) (cb1 cb2 : Cb)
    (castOk : Nat → Nat → Bool) (dflt : Bool) (fb : Option Cb)
    (that : Option RNode) :
    visit castOk
      (addSpecialization (addSpecialization s0 tag cb1) tag cb2)
      dflt fb that =
    visit castOk (addSpecialization s0 tag cb1) dflt fb that := by
  have hins : ∀ (m : List (Nat × Cb)) (cb : Cb),
      (m.find? (fun p => p.1 == tag)).isSome → mapInsert m tag cb = m := by
    intro m cb h
    unfold mapInsert
    rw [if_pos h]
  have hexact :
      (addSpecialization (addSpecialization s0 tag cb1) tag cb2).exactMap =
        (addSpecialization s0 tag cb1).exactMap :=
    hins (mapInsert s0.exactMap tag cb1) cb2
      (find?_mapInsert_self s0.exactMap tag cb1)
  cases that with
  | none => rfl
  | some a =>
    simp only [visit, hexact]
    cases hfind :
        (addSpecialization s0 tag cb1).exactMap.find? (fun p => p.1 == a.rt) with
    | some p => rfl
    | none =>
      have horder :
          (addSpecialization (addSpecialization s0 tag cb1) tag cb2).orderList =
            (addSpecialization s0 tag cb1).orderList ++ [(tag, cb2)] := rfl
      rw [horder, visitLoop_append]
      cases hloop :
          visitLoop castOk a (addSpecialization s0 tag cb1).orderList with
      | some b => rfl
      | none =>
        have hfail :=
          (visitLoop_eq_none_iff castOk a
            (addSpecialization s0 tag cb1).orderList).mp hloop
        have htagfail : castOk a.rt tag = false := by
          have hmem : (tag, cb1) ∈ (addSpecialization s0 tag cb1).orderList :=
            List.mem_append_right _ (List.mem_singleton.mpr rfl)
          exact hfail (tag, cb1) hmem
        simp [visitLoop, dynCastRun, htagfail]

/-- Initial state built by the `SelectionVisitor` constructor
(`found(false), selectedObject(), currentLevel(0)`). -/
def USelState.init (path : List Nat) : USelState :=
  ⟨false, AnyBox.empty, path, 0, false⟩

/-- Callback `SelectionVisitor::visitSelectableLeaf` (src/selection.cpp),
dispatched: like the typed leaf hook with the `isSet` payload test. -/
def usvLeaf (s : USelState) (info : SelInfo) : Bool × USelState :=
  match info with
  | none => (true, s)
  | some (name, payload) =>
    match s.desiredName.get? s.currentLevel with
    | none => (false, { s with oob := true })
    | some want =>
      if name = want then
        let s1 := { s with currentLevel := s.currentLevel + 1 }
        if s1.currentLevel < s1.desiredName.length then
          (!s1.found, s1)
        else
          if payload.isSet then
            let s2 := { s1 with found := true, selectedObject := payload }
            (!s2.found, s2)
          else (!s1.found, s1)
      else (!s.found, s)

mutual
/-- Full name paths (per the spec's addressing scheme: the names pushed
by the selectable ancestors, then the node's own name) of every
selectable node of a tree, with its payload, in traversal order.
`above` is the name path accumulated above the node. -/
def selNamePaths (above : List Nat) : RTree SelInfo → List (List Nat × AnyBox)
  | .leaf none => []
  | .leaf (some (n, p)) => [(above ++ [n], p)]
  | .comp none cs => selNamePathsList above cs
  | .comp (some (n, p)) cs =>
    (above ++ [n], p) :: selNamePathsList (above ++ [n]) cs

/-- Name paths of the selectable nodes of a forest, in order. -/
def selNamePathsList (above : List Nat) :
    List (RTree SelInfo) → List (List Nat × AnyBox)
  | [] => []
  | c :: cs => selNamePaths above c ++ selNamePathsList above cs
end

/-! ## Claim C1 — typed selection resolution -/

/-- A tree on which the general resolution guarantee fails: the root is
`SelectableCompositeRenderable(name 3)`, its first child an empty
`SelectableCompositeRenderable(name 5)`, its second child a
`SelectableLeafRenderable(name 7)` carrying a payload of the desired
type (tag 1, value 42).  The unique selectable full name path `[3, 7]`
exists with a correctly-typed payload. -/
def selectionMissTree : RTree SelInfo :=
  .comp (some (3, AnyBox.empty))
    [ .comp (some (5, AnyBox.empty)) [],
      .leaf (some (7, AnyBox.empty.set 1 42)) ]

/-- Counterexample to C1: on `selectionMissTree` the unique selectable
node with full name path `[3, 7]` exists (first conjunct) and its
payload has the desired type (second conjunct), yet
`TypedSelectionVisitor<TDesired>([3, 7])` reports not-found with a NULL
selected object — the mismatching sibling composite `(name 5)` makes
`visitSelectableEnter` return `false`, which as the child's `accept`
result breaks the parent's component loop before the matching leaf is
reached.  No out-of-bounds read occurs in this run. -/
theorem typed_selection_misses_matching_branch :
    selNamePaths [] selectionMissTree =
      [([3], AnyBox.empty), ([3, 5], AnyBox.empty),
        ([3, 7], AnyBox.empty.set 1 42)] ∧
    (AnyBox.empty.set 1 42).get 1 = some 42 ∧
    (runTypedSelection 1 [3, 7] selectionMissTree).found = false ∧
    (runTypedSelection 1 [3, 7] selectionMissTree).selectedObject = none ∧
    (runTypedSelection 1 [3, 7] selectionMissTree).oob = false := by
  decide

/-- The tree of the spec's end-to-end example:
`Composite(name=3) -> Leaf(name=7, payload = value 42 of type tag 1)`. -/
def selectionExampleTree : RTree SelInfo :=
  .comp (some (3, AnyBox.empty)) [.leaf (some (7, AnyBox.empty.set 1 42))]

/-- C1 (amended): on the example tree `Composite(name=3)` containing
`Leaf(name=7, payload)`, running `TypedSelectionVisitor<TDesired>` with
path `[3, 7]` finds exactly the stored payload; with path `[3, 8]` (no
such child) it reports not-found; with a desired type (tag 2) different
from the payload's it reports not-found.  None of these runs reads the
name path out of bounds. -/
theorem typed_selection_example_tree_resolution :
    (runTypedSelection 1 [3, 7] selectionExampleTree).found = true ∧
    (runTypedSelection 1 [3, 7] selectionExampleTree).selectedObject = some 42 ∧
    (runTypedSelection 1 [3, 8] selectionExampleTree).found = false ∧
    (runTypedSelection 1 [3, 8] selectionExampleTree).selectedObject = none ∧
    (runTypedSelection 2 [3, 7] selectionExampleTree).found = false ∧
    (runTypedSelection 2 [3, 7] selectionExampleTree).selectedObject = none ∧
    (runTypedSelection 1 [3, 7] selectionExampleTree).oob = false ∧
    (runTypedSelection 1 [3, 8] selectionExampleTree).oob = false ∧
    (runTypedSelection 2 [3, 7] selectionExampleTree).oob = false := by
  decide

/-! ## Claim C2 — empty target name path -/

/-- C2 (code bug): with an empty target name path, the enter and leaf
callbacks of both `TypedSelectionVisitor` and `SelectionVisitor`
evaluate `desiredName[currentLevel]` — `desiredName[0]` on an empty
`std::vector`, an unchecked out-of-bounds read — *before* any
`currentLevel < desiredName.size()` test, as soon as a selectable node
is visited; a whole-tree traversal on a one-node selectable tree hits it
too.  The last conjunct records that index 0 is indeed out of range for
the empty path. -/
theorem selection_empty_path_reads_out_of_bounds :
    (tsvEnter 1 (TSelState.init []) (some (3, AnyBox.empty))).2.oob = true ∧
    (tsvLeaf 1 (TSelState.init []) (some (7, AnyBox.empty))).2.oob = true ∧
    (usvEnter (USelState.init []) (some (3, AnyBox.empty))).2.oob = true ∧
    (usvLeaf (USelState.init []) (some (7, AnyBox.empty))).2.oob = true ∧
    (runTypedSelection 1 [] (RTree.comp (some (3, AnyBox.empty)) [])).oob = true ∧
    (TSelState.init []).desiredName.get? 0 = none := by
  decide

/-! ## Claim C9 — buffer entry layout and cursor advance -/

/-- Reading back `ns.length` consecutive words that hold `ns`. -/
theorem readNames_encode :
    ∀ (ns : List Nat) (buf : Nat → Nat) (ptr : Nat),
      (∀ k, k < ns.length → buf (ptr + k) = ns.getD k 0) →
      readNames buf ptr ns.length = ns
  | [], _, _, _ => rfl
  | n :: ns, buf, ptr, h => by
    have h0 : buf ptr = n := by simpa using h 0 (Nat.succ_pos _)
    have htail : ∀ k, k < ns.length → buf (ptr + 1 + k) = ns.getD k 0 := by
      intro k hk
      have hs : ptr + (k + 1) = ptr + 1 + k := by omega
      have := h (k + 1) (by simpa using Nat.succ_lt_succ hk)
      rw [hs] at this
      simpa using this
    simp [readNames, h0, readNames_encode ns buf (ptr + 1) htail]

/-- Decoding a buffer that holds `hits.length` encoded entries starting
at `ptr` recovers exactly those hits. -/
theorem analyzeLoop_encode :
    ∀ (hits : List Hit) (buf : Nat → Nat) (ptr : Nat),
      (∀ k, buf (ptr + k) = (encodeBuffer hits).getD k 0) →
      analyzeLoop buf hits.length ptr = hits
  | [], _, _, _ => rfl
  | h :: hs, buf, ptr, H => by
    have henc : encodeBuffer (h :: hs) =
        h.nameHierarchy.length :: h.zMinRaw :: h.zMaxRaw ::
          (h.nameHierarchy ++ encodeBuffer hs) := by
      simp [encodeBuffer, encodeEntry]
    have b0 : buf ptr = h.nameHierarchy.length := by
      have := H 0
      rw [henc] at this
      simpa using this
    have b1 : buf (ptr + 1) = h.zMinRaw := by
      have := H 1
      rw [henc] at this
      simpa using this
    have b2 : buf (ptr + 2) = h.zMaxRaw := by
      have := H 2
      rw [henc] at this
      simpa using this
    have bn : ∀ k, k < h.nameHierarchy.length →
        buf (ptr + 3 + k) = h.nameHierarchy.getD k 0 := by
      intro k hk
      have hs3 : ptr + (3 + k) = ptr + 3 + k := by omega
      have hix : 3 + k = k + 1 + 1 + 1 := by omega
      have := H (3 + k)
      rw [henc, hs3, hix] at this
      rw [this]
      simp only [List.getD_cons_succ]
      exact List.getD_append _ _ _ _ hk
    have brest : ∀ k, buf (ptr + 3 + h.nameHierarchy.length + k) =
        (encodeBuffer hs).getD k 0 := by
      intro k
      have hs4 : ptr + (3 + (h.nameHierarchy.length + k)) =
          ptr + 3 + h.nameHierarchy.length + k := by omega
      have hix : 3 + (h.nameHierarchy.length + k) =
          h.nameHierarchy.length + k + 1 + 1 + 1 := by omega
      have := H (3 + (h.nameHierarchy.length + k))
      rw [henc, hs4, hix] at this
      rw [this]
      simp only [List.getD_cons_succ]
      rw [List.getD_append_right _ _ _ _ (Nat.le_add_right _ _)]
      simp
    show analyzeLoop buf (hs.length + 1) ptr = h :: hs
    rw [analyzeLoop, b0, b1, b2,
      readNames_encode h.nameHierarchy buf (ptr + 3) bn,
      analyzeLoop_encode hs buf (ptr + 3 + h.nameHierarchy.length) brest]

/-- C9: `analyzeSelectionBuffer` consumes exactly `resultCount` entries
laid out `[nameCount, depthMinRaw, depthMaxRaw, names...]`, producing one
hit per entry with the names copied in order (first conjunct: decoding a
buffer of encoded entries recovers them exactly); zero entries produce
no hit (second conjunct); each iteration advances the read cursor by
`3 + nameCount` (third conjunct); and a hit's `zMin`/`zMax` are the raw
words divided by the maximum representable unsigned value (fourth
conjunct). -/
theorem analyze_buffer_layout_roundtrip (hits : List Hit) (buf : Nat → Nat) :
    decodeHits hits.length (bufferFun (encodeBuffer hits)) = hits ∧
    decodeHits 0 buf = [] ∧
    (∀ i ptr, analyzeLoop buf (i + 1) ptr =
      ⟨buf (ptr + 1), buf (ptr + 2), readNames buf (ptr + 3) (buf ptr)⟩ ::
        analyzeLoop buf i (ptr + 3 + buf ptr)) ∧
    (∀ h : Hit, h.zMin = (h.zMinRaw : ℚ) / 4294967295 ∧
      h.zMax = (h.zMaxRaw : ℚ) / 4294967295) := by
  refine ⟨?_, rfl, fun i ptr => rfl, fun h => ⟨rfl, rfl⟩⟩
  exact analyzeLoop_encode hits (bufferFun (encodeBuffer hits)) 0
    (fun k => by simp [bufferFun])

/-! ## Claim C4 — hit list sorting -/

/-- Comparing `zMin` values is comparing the raw depth words: the
division by the positive constant `4294967295` is monotone. -/
theorem zMin_le_iff (a b : Hit) : a.zMin ≤ b.zMin ↔ a.zMinRaw ≤ b.zMinRaw := by
  unfold Hit.zMin
  rw [div_le_div_iff_of_pos_right (by norm_num : (0 : ℚ) < 4294967295)]
  exact Nat.cast_le

/-- Equal `zMin` values means equal raw depth words. -/
theorem zMin_eq_iff (a b : Hit) : a.zMin = b.zMin ↔ a.zMinRaw = b.zMinRaw := by
  constructor
  · intro h
    exact le_antisymm ((zMin_le_iff a b).mp h.le) ((zMin_le_iff b a).mp h.ge)
  · intro h
    unfold Hit.zMin
    rw [h]

/-- First of two hits sharing the same `depthMinRaw` (names `[5]`). -/
def hitEqA : Hit := ⟨100, 200, [5]⟩

/-- Second of two hits sharing the same `depthMinRaw` (names `[6]`). -/
def hitEqB : Hit := ⟨100, 200, [6]⟩

/-- Counterexample to C4's stability conjunct: the code sorts with
`std::sort`, whose contract is only "a sorted permutation"; on a buffer
holding two hits with equal `depthMin` (decoded in order
`[hitEqA, hitEqB]`, first conjunct; equal keys, second conjunct) the
swapped list `[hitEqB, hitEqA]` also satisfies the sort's postcondition
(third conjunct) while not keeping the buffer order (fourth conjunct);
hence "equal-`depthMin` hits keep their relative buffer order" does not
follow from the code (fifth conjunct). -/
theorem analyze_sort_stability_not_guaranteed :
    decodeHits 2 (bufferFun (encodeBuffer [hitEqA, hitEqB])) =
      [hitEqA, hitEqB] ∧
    hitEqA.zMin = hitEqB.zMin ∧
    AnalyzeOutcome 2 (bufferFun (encodeBuffer [hitEqA, hitEqB]))
      [hitEqB, hitEqA] ∧
    [hitEqB, hitEqA] ≠ ([hitEqA, hitEqB] : List Hit) ∧
    ¬ (∀ out, AnalyzeOutcome 2 (bufferFun (encodeBuffer [hitEqA, hitEqB])) out
        → out = [hitEqA, hitEqB]) := by
  have hdec : decodeHits 2 (bufferFun (encodeBuffer [hitEqA, hitEqB])) =
      [hitEqA, hitEqB] := by decide
  have houtcome : AnalyzeOutcome 2 (bufferFun (encodeBuffer [hitEqA, hitEqB]))
      [hitEqB, hitEqA] := by
    constructor
    · rw [hdec]
      exact List.Perm.swap hitEqA hitEqB []
    · exact List.chain'_cons.mpr ⟨(zMin_le_iff _ _).mpr (by decide),
        List.chain'_singleton _⟩
  refine ⟨hdec, (zMin_eq_iff hitEqA hitEqB).mpr (by decide), houtcome,
    by decide, ?_⟩
  intro hall
  exact absurd (hall [hitEqB, hitEqA] houtcome) (by decide)

/-- Hit entering at depth roughly 0.5 (name `[1]`). -/
def exHitHalf : Hit := ⟨2147483648, 2147483648, [1]⟩

/-- Hit entering at depth roughly 0.1 (name `[2]`). -/
def exHitTenth : Hit := ⟨429496730, 429496730, [2]⟩

/-- Hit entering at depth roughly 0.9 (name `[3]`). -/
def exHitNine : Hit := ⟨3865470566, 3865470566, [3]⟩

/-- C4 (amended): the hit list produced by `analyzeSelectionBuffer` is
sorted ascending by `depthMin`, so its first element always has the
smallest `depthMin` (first conjunct); when all `depthMin` keys are
distinct the sorted permutation is unique, so hits decoded at depths
`[0.5, 0.1, 0.9]` come out exactly `[0.1, 0.5, 0.9]` (second conjunct)
and re-decoding the already-sorted buffer yields that identical order
(third conjunct).  Stability on equal keys is dropped: `std::sort`
does not promise it. -/
theorem analyze_sorted_ascending_and_example
    (count : Nat) (buf : Nat → Nat) (out : List Hit) (h : Hit)
    (rest : List Hit) :
    (AnalyzeOutcome count buf out → out = h :: rest →
      ∀ x ∈ out, h.zMin ≤ x.zMin) ∧
    (AnalyzeOutcome 3
        (bufferFun (encodeBuffer [exHitHalf, exHitTenth, exHitNine])) out →
      out = [exHitTenth, exHitHalf, exHitNine]) ∧
    (AnalyzeOutcome 3
        (bufferFun (encodeBuffer [exHitTenth, exHitHalf, exHitNine])) out →
      out = [exHitTenth, exHitHalf, exHitNine]) := by
  have hsorted : SortedByZMin [exHitTenth, exHitHalf, exHitNine] :=
    List.chain'_cons.mpr ⟨(zMin_le_iff _ _).mpr (by decide),
      List.chain'_cons.mpr ⟨(zMin_le_iff _ _).mpr (by decide),
        List.chain'_singleton _⟩⟩
  have hdistRaw : List.Pairwise (fun a b : Hit => a.zMinRaw ≠ b.zMinRaw)
      [exHitTenth, exHitHalf, exHitNine] := by decide
  have hdist : List.Pairwise (fun a b : Hit => a.zMin ≠ b.zMin)
      [exHitTenth, exHitHalf, exHitNine] :=
    hdistRaw.imp fun hab heq => hab ((zMin_eq_iff _ _).mp heq)
  refine ⟨?_, ?_, ?_⟩
  · rintro ⟨_, hsort⟩ hout x hx
    subst hout
    rcases List.mem_cons.mp hx with hxh | hxt
    · exact le_of_eq (by rw [hxh])
    · exact zMin_head_min rest h hsort x hxt
  · rintro ⟨hperm, hsort⟩
    refine sorted_perm_eq_of_zMin_distinct _ _ ?_ hsort hsorted hdist
    have hdec : decodeHits 3
        (bufferFun (encodeBuffer [exHitHalf, exHitTenth, exHitNine])) =
          [exHitHalf, exHitTenth, exHitNine] := by decide
    rw [hdec] at hperm
    exact hperm.trans (by decide)
  · rintro ⟨hperm, hsort⟩
    refine sorted_perm_eq_of_zMin_distinct _ _ ?_ hsort hsorted hdist
    have hdec : decodeHits 3
        (bufferFun (encodeBuffer [exHitTenth, exHitHalf, exHitNine])) =
          [exHitTenth, exHitHalf, exHitNine] := by decide
    rw [hdec] at hperm
    exact hperm

/-- Witness for C4 (amended): on the `[0.5, 0.1, 0.9]` example buffer
the list `[0.1, 0.5, 0.9]` is a valid sort outcome, and the theorem
applied to it puts the `0.1` hit's `zMin` below the `0.9` hit's. -/
theorem analyze_sorted_ascending_and_example_witness :
    exHitTenth.zMin ≤ exHitNine.zMin := by
  have houtcome : AnalyzeOutcome 3
      (bufferFun (encodeBuffer [exHitHalf, exHitTenth, exHitNine]))
      [exHitTenth, exHitHalf, exHitNine] := by
    constructor
    · have hdec : decodeHits 3
          (bufferFun (encodeBuffer [exHitHalf, exHitTenth, exHitNine])) =
            [exHitHalf, exHitTenth, exHitNine] := by decide
      rw [hdec]
      decide
    · exact List.chain'_cons.mpr ⟨(zMin_le_iff _ _).mpr (by decide),
        List.chain'_cons.mpr ⟨(zMin_le_iff _ _).mpr (by decide),
          List.chain'_singleton _⟩⟩
  exact (analyze_sorted_ascending_and_example 3
      (bufferFun (encodeBuffer [exHitHalf, exHitTenth, exHitNine]))
      [exHitTenth, exHitHalf, exHitNine] exHitTenth
      [exHitHalf, exHitNine]).1 houtcome rfl exHitNine (by decide)
